import Mathlib

/-
Shallow embedding of the vantage-point index engine in src/db.cpp
(class Database::Impl), at the logical level of the SQLite schema it
drives: the four tables mvp_points, mvp_vantage_points, mvp_items and
mvp_counts become lists and a record of counters, prepared statements
become the functions they compute, and the process-local cache
(vp_ids_, insert_point, partition_points) becomes explicit state.

The source is work in progress: several identifiers are obvious naming
slips (dists for vp_dists, increment_count for upd_count, files for
items, the bare table name points for mvp_points). Those slips are
normalized here to the statement templates they clearly refer to.
Algorithmic content is kept exactly as written: the query loop records
every interval-prune survivor without comparing its true distance to
the radius, get_distance casts the external distance to int with no
range check (the TODO at db.cpp:144), insert_point_ stores the
distances as int32 while add_points_column_ stores them as uint32, and
find_vantage_point reads the vantage-point count and then returns with
both branches of its conditional empty.

Machine integers are modeled as Nat and Int with explicit reduction
modulo 2^32 where the C++ conversions apply.
-/

set_option autoImplicit false

namespace ImgHash

/-- point_type is a byte sequence (std::vector of uint8_t); bytes are
modeled as Nat, the sequence as a list. -/
abbrev Value := List Nat

/-- item_type is an opaque external key; modeled as Nat. -/
abbrev ItemKey := Nat

/-- Conversion of a non-negative integer to the value of a C
static_cast to a 32-bit signed int (two-complement wrap). -/
def toInt32 (n : Nat) : Int :=
  if n % 2 ^ 32 < 2 ^ 31 then (n % 2 ^ 32 : Int) else (n % 2 ^ 32 : Int) - 2 ^ 32

/-- Conversion of a signed integer to a 32-bit unsigned value
(reduction modulo 2^32). -/
def toUInt32 (i : Int) : Nat :=
  (i % (2 ^ 32 : Int)).toNat

/-- Database::Impl::get_distance: static_cast to int of the external
Hash::distance, with no range check (the TODO at db.cpp:144). The
external distance function is a parameter of the model. -/
def get_distance (dist : Value → Value → Nat) (a b : Value) : Int :=
  toInt32 (dist a b)

/-- Row of mvp_points: id, value BLOB UNIQUE, and one column d{vp_id}
per registered vantage point, kept as an association list in column
order. -/
structure Point where
  id : Nat
  value : Value
  embedding : List (Nat × Int)
deriving Repr, DecidableEq

/-- Row of mvp_vantage_points: id, value BLOB UNIQUE. -/
structure VantagePoint where
  id : Nat
  value : Value
deriving Repr, DecidableEq

/-- Row of mvp_items: id, the external key, and point_id referencing
mvp_points. -/
structure Item where
  id : Nat
  key : ItemKey
  point_id : Nat
deriving Repr, DecidableEq

/-- Row of mvp_counts. -/
structure Counts where
  points : Nat
  vantage_points : Nat
  parts : Nat
  items : Nat
deriving Repr, DecidableEq

/-- State of an open database: the persistent tables (mvp_points in
rowid order, mvp_vantage_points in id order, mvp_items in rowid order,
mvp_counts) plus the process-local cache of Database::Impl: vp_ids_
and the two lazily compiled statements insert_point and
partition_points, each identified by the vantage-point id list it was
compiled against (the SQL text is a function of that list). -/
structure DB where
  points : List Point
  vps : List VantagePoint
  items : List Item
  counts : Counts
  vp_ids_cache : List Nat
  ins_point_stmt : Option (List Nat)
  part_stmt : Option (List Nat)
deriving Repr, DecidableEq

/-- Freshly initialized database: init_tables on an empty file leaves
every table empty, counters zero, and vp_ids_ equal to the (empty)
contents of mvp_vantage_points. -/
def emptyDB : DB :=
  { points := [], vps := [], items := [],
    counts := { points := 0, vantage_points := 0, parts := 0, items := 0 },
    vp_ids_cache := [], ins_point_stmt := none, part_stmt := none }

/-- Reading column d{vp_id} of a point row: the first matching
embedding entry; a row that has no stored entry reads the column
default 0x7FFFFFFF from the ALTER TABLE in str_add_points_col. -/
def lookup_col (emb : List (Nat × Int)) (vp_id : Nat) : Int :=
  ((emb.find? (fun e => e.1 = vp_id)).map (fun e => e.2)).getD 0x7FFFFFFF

/-- Database::Impl::update_vp_ids: if the cached list differs from the
observed one, replace it and discard both compiled statements. -/
def update_vp_ids (db : DB) (vp_ids : List Nat) : DB :=
  if db.vp_ids_cache = vp_ids then db
  else { db with vp_ids_cache := vp_ids, ins_point_stmt := none, part_stmt := none }

/-- Database::Impl::vp_dists_: walk mvp_vantage_points in id order,
collect the ids and the distances to the given point (int to uint32 to
int32 round trip preserves the int32 value of get_distance), then call
update_vp_ids with the observed ids. -/
def vp_dists_ (dist : Value → Value → Nat) (db : DB) (p_value : Value) :
    List Int × DB :=
  let vp_ids := db.vps.map (fun vp => vp.id)
  let dists := db.vps.map (fun vp => get_distance dist vp.value p_value)
  (dists, update_vp_ids db vp_ids)

/-- Database::Impl::insert_point_: if the value exists, return its id
with no other effect; otherwise compute the vantage-point distances,
lazily compile the insert statement against the cached id list, insert
the row (columns d{id} for id in the list the statement was compiled
for, bound positionally to the distances) and increment the points
counter. The middle component reports the id list of the compiled
statement that was executed, none when no insert ran. -/
def insert_point_ (dist : Value → Value → Nat) (db : DB) (p_value : Value) :
    Nat × Option (List Nat) × DB :=
  match db.points.find? (fun p => p.value = p_value) with
  | some p => (p.id, none, db)
  | none =>
      let r := vp_dists_ dist db p_value
      let db1 := r.2
      let key := db1.ins_point_stmt.getD db1.vp_ids_cache
      let db2 := { db1 with ins_point_stmt := some key }
      let id := db2.points.length + 1
      let pt : Point := { id := id, value := p_value, embedding := key.zip r.1 }
      (id, some key,
        { db2 with points := db2.points ++ [pt],
                   counts := { db2.counts with points := db2.counts.points + 1 } })

/-- Database::Impl::insert_item_: look the key up; if present with a
different point_id, update the point_id in place; if present with the
same point_id, do nothing; if absent, insert a fresh row and increment
the items counter. -/
def insert_item_ (db : DB) (point_id : Nat) (item : ItemKey) : DB :=
  match db.items.find? (fun it => it.key = item) with
  | some it =>
      if it.point_id ≠ point_id then
        { db with items := db.items.map (fun j =>
            if j.key = item then { j with point_id := point_id } else j) }
      else db
  | none =>
      { db with
        items := db.items ++ [{ id := db.items.length + 1, key := item, point_id := point_id }],
        counts := { db.counts with items := db.counts.items + 1 } }

/-- Database::Impl::insert: insert_point_ then insert_item_, under one
transaction. -/
def insert (dist : Value → Value → Nat) (db : DB) (p_value : Value) (item : ItemKey) : DB :=
  let r := insert_point_ dist db p_value
  insert_item_ r.2.2 r.1 item

/-- Error taxonomy of the engine (section 7 of the design): the source
raises these as exceptions or SQLite constraint failures. -/
inductive Err where
  | DuplicateVantagePoint
  | DistanceOverflow
  | InsufficientData
  | StorageError
deriving Repr, DecidableEq

/-- Database::Impl::insert_vantage_point_: the INSERT into
mvp_vantage_points fails on the UNIQUE constraint over value when the
value is already registered (the DuplicateVantagePoint failure);
otherwise the row is inserted and the vantage-point counter
incremented. -/
def insert_vantage_point_ (db : DB) (vp_value : Value) : Except Err (Nat × DB) :=
  if db.vps.any (fun vp => vp.value = vp_value) then
    .error .DuplicateVantagePoint
  else
    let id := db.vps.length + 1
    .ok (id,
      { db with vps := db.vps ++ [{ id := id, value := vp_value }],
                counts := { db.counts with vantage_points := db.counts.vantage_points + 1 } })

/-- First half of Database::Impl::add_points_column_: the ALTER TABLE
of str_add_points_col adds column d{vp_id} with default 0x7FFFFFFF, so
every existing row gains an entry holding that default. -/
def add_column_default (db : DB) (vp_id : Nat) : DB :=
  { db with points := db.points.map (fun p =>
      { p with embedding := p.embedding ++ [(vp_id, 0x7FFFFFFF)] }) }

/-- Second half of Database::Impl::add_points_column_: the scan over
mvp_points updates column d{vp_id} of every visited row to the
computed distance, bound as a uint32 value. The visited list makes the
extent of the scan explicit; the source scans every row. -/
def backfill_points (dist : Value → Value → Nat) (db : DB) (vp_id : Nat)
    (vp_value : Value) (visited : List Nat) : DB :=
  { db with points := db.points.map (fun p =>
      if p.id ∈ visited then
        { p with embedding := p.embedding.map (fun e =>
            if e.1 = vp_id then (vp_id, (toUInt32 (get_distance dist vp_value p.value) : Int))
            else e) }
      else p) }

/-- Database::Impl::add_points_column_: add the defaulted column, then
backfill every row of mvp_points. -/
def add_points_column_ (dist : Value → Value → Nat) (db : DB) (vp_id : Nat)
    (vp_value : Value) : DB :=
  let db1 := add_column_default db vp_id
  backfill_points dist db1 vp_id vp_value (db1.points.map (fun p => p.id))

/-- Database::Impl::add_vantage_point: insert_vantage_point_ then
add_points_column_ under one transaction; a failure aborts the whole
transaction, so the caller keeps the unmodified state. -/
def add_vantage_point (dist : Value → Value → Nat) (db : DB) (vp_value : Value) :
    Except Err DB :=
  match insert_vantage_point_ db vp_value with
  | .error e => .error e
  | .ok r => .ok (add_points_column_ dist r.2 r.1 vp_value)

/-- Lower bound of the admissible interval, from Database::Impl::query
(db.cpp:465): d and radius are uint32 values. -/
def lower_bound (d radius : Nat) : Nat :=
  if d ≤ radius then 0 else d - radius

/-- Upper bound of the admissible interval, from Database::Impl::query
(db.cpp:466): clamped at 0xFFFFFFFF. -/
def upper_bound (d radius : Nat) : Nat :=
  if 0xFFFFFFFF - radius ≤ d then 0xFFFFFFFF else d + radius

/-- All lower bounds, one per vantage point in id order; the query
distance d is the uint32 conversion of the int returned by
get_distance. -/
def lower_bounds (dist : Value → Value → Nat) (db : DB) (pt : Value) (radius : Nat) :
    List Nat :=
  db.vps.map (fun vp => lower_bound (toUInt32 (get_distance dist vp.value pt)) radius)

/-- All upper bounds, one per vantage point in id order. -/
def upper_bounds (dist : Value → Value → Nat) (db : DB) (pt : Value) (radius : Nat) :
    List Nat :=
  db.vps.map (fun vp => upper_bound (toUInt32 (get_distance dist vp.value pt)) radius)

/-- One BETWEEN predicate of the compiled partition statement: column
d{c.1} of the row lies between the bound pair c.2, compared in SQLite
integer (Int) arithmetic since the stored value was bound as int32 and
the bounds as uint32. -/
def in_interval (emb : List (Nat × Int)) (c : Nat × Nat × Nat) : Bool :=
  decide ((c.2.1 : Int) ≤ lookup_col emb c.1) && decide (lookup_col emb c.1 ≤ (c.2.2 : Int))

/-- The predicate list of the partition statement executed by query:
the statement is lazily compiled against the cached id list after
update_vp_ids, and its columns are bound positionally to the bounds
computed in vantage-point order. -/
def query_conds (dist : Value → Value → Nat) (db : DB) (pt : Value) (radius : Nat) :
    List (Nat × Nat × Nat) :=
  let db1 := update_vp_ids db (db.vps.map (fun vp => vp.id))
  let key := db1.part_stmt.getD db1.vp_ids_cache
  key.zip ((lower_bounds dist db pt radius).zip (upper_bounds dist db pt radius))

/-- Rows returned by the partition statement: points satisfying every
BETWEEN predicate (conjunction). -/
def query_candidates (dist : Value → Value → Nat) (db : DB) (pt : Value) (radius : Nat) :
    List Point :=
  db.points.filter (fun p => (query_conds dist db pt radius).all (in_interval p.embedding))

/-- Insertion of one entry into a working list sorted by distance
ascending, ties broken by point id ascending. -/
def insertSorted (x : Nat × Nat) : List (Nat × Nat) → List (Nat × Nat)
  | [] => [x]
  | y :: ys =>
      if x.2 < y.2 ∨ (x.2 = y.2 ∧ x.1 ≤ y.1) then x :: y :: ys
      else y :: insertSorted x ys

/-- Sort of the temp.mvp_query working set by (dist, id). -/
def sortWorking : List (Nat × Nat) → List (Nat × Nat)
  | [] => []
  | x :: xs => insertSorted x (sortWorking xs)

/-- Keys of the items resolving to each working-set point, in
working-set order; items of one point come in rowid order. -/
def keys_of (items : List Item) : List (Nat × Nat) → List ItemKey
  | [] => []
  | w :: ws => (items.filter (fun it => it.point_id = w.1)).map (fun it => it.key)
      ++ keys_of items ws

/-- Modelled from the spec: the final SELECT of the query path (the
statement the source calls get_files_by_query, whose SQL text is
missing from the repository; only its call site binding $limit
exists). Per section 4.4 of the spec it joins the working set against
the Item store, orders by true distance ascending with ties broken by
identifier order, and truncates to limit, where limit 0 means
unbounded. -/
def retrieve_items (items : List Item) (working : List (Nat × Nat)) (limit : Nat) :
    List ItemKey :=
  let keys := keys_of items (sortWorking working)
  if limit = 0 then keys else keys.take limit

/-- Database::Impl::query: read the vantage points and compute the
interval bounds, update the cached id list (discarding stale compiled
statements), lazily compile the partition statement, collect the
candidate rows it returns, record each candidate with its true
distance to the query point in the working set — the source compares
no candidate distance against the radius — and retrieve the item keys.
The middle component reports the id list of the partition statement
that was executed. -/
def query_ (dist : Value → Value → Nat) (db : DB) (pt : Value) (radius limit : Nat) :
    List ItemKey × List Nat × DB :=
  let db1 := update_vp_ids db (db.vps.map (fun vp => vp.id))
  let key := db1.part_stmt.getD db1.vp_ids_cache
  let db2 := { db1 with part_stmt := some key }
  let cands := query_candidates dist db pt radius
  let working := cands.map (fun p => (p.id, toUInt32 (get_distance dist pt p.value)))
  (retrieve_items db2.items working limit, key, db2)

/-- Database::query: the public entry point returns the item keys and
the state with its updated statement cache. -/
def query (dist : Value → Value → Nat) (db : DB) (pt : Value) (radius limit : Nat) :
    List ItemKey × DB :=
  let r := query_ dist db pt radius limit
  (r.1, r.2.2)

/-- Database::Impl::find_vantage_point: the source reads the
vantage-point count from mvp_counts, branches on whether it is
positive, and both branches are empty; the function then commits and
returns without producing a value and without ever consulting the
Point store. The undefined return is modeled as ok none; no
InsufficientData path exists in the source. -/
def find_vantage_point (db : DB) (sample_size : Nat) : Except Err (Option Value) :=
  let num_vantage_points := db.counts.vantage_points
  if num_vantage_points > 0 then .ok none else .ok none

/-- Operations of the public interface that mutate or read the store. -/
inductive Op where
  | ins (p_value : Value) (item : ItemKey)
  | reg (vp_value : Value)
  | qry (pt : Value) (radius limit : Nat)
deriving Repr, DecidableEq

/-- One operation against the store; a failing operation aborts its
transaction, leaving the state unchanged. -/
def step (dist : Value → Value → Nat) (db : DB) : Op → DB
  | .ins v k => insert dist db v k
  | .reg v =>
      match add_vantage_point dist db v with
      | .ok db2 => db2
      | .error _ => db
  | .qry pt radius limit => (query dist db pt radius limit).2

/-- A sequence of operations. -/
def run (dist : Value → Value → Nat) (db : DB) : List Op → DB
  | [] => db
  | op :: ops => run dist (step dist db op) ops

/-- Cache coherence: a compiled statement, when present, was built
against the currently cached vantage-point id list. -/
def stmt_inv (db : DB) : Prop :=
  (db.ins_point_stmt = none ∨ db.ins_point_stmt = some db.vp_ids_cache) ∧
  (db.part_stmt = none ∨ db.part_stmt = some db.vp_ids_cache)

/-- Vantage-point rows carry ids 1..n in order, as SQLite assigns
INTEGER PRIMARY KEY rowids to a table that never sees a delete. -/
def vps_ids_ok (db : DB) : Prop :=
  db.vps.map (fun vp => vp.id) = List.range' 1 db.vps.length

/-- Embedding completeness: every stored point carries exactly one
entry per registered vantage point, in registration order, holding the
external distance. -/
def emb_exact (dist : Value → Value → Nat) (db : DB) : Prop :=
  ∀ p ∈ db.points, p.embedding = db.vps.map (fun vp => (vp.id, (dist vp.value p.value : Int)))

/-- Inductive invariant of reachable states. -/
def Inv (dist : Value → Value → Nat) (db : DB) : Prop :=
  vps_ids_ok db ∧ stmt_inv db ∧ emb_exact dist db

/-- Sum of a byte sequence. -/
def sumList : List Nat → Nat
  | [] => 0
  | a :: as => a + sumList as

/-- Concrete distance for counterexample scenarios: the L1 distance
between byte sequences, a genuine metric. -/
def cdist : Value → Value → Nat
  | [], bs => sumList bs
  | a :: as, [] => a + cdist as []
  | a :: as, b :: bs => ((a - b) + (b - a)) + cdist as bs

/-- Concrete distance bounded by the int32 range, for witnesses. -/
def distOne (a b : Value) : Nat := 1

/-- Concrete distance that overflows the int32 range on distinct
inputs. -/
def bigDist (a b : Value) : Nat := if a = b then 0 else 2 ^ 31

theorem toInt32_of_lt {n : Nat} (h : n < 2 ^ 31) : toInt32 n = n := by
  unfold toInt32
  rw [if_pos (by omega : n % 2 ^ 32 < 2 ^ 31)]
  omega

theorem toUInt32_natCast {n : Nat} (h : n < 2 ^ 32) : toUInt32 (n : Int) = n := by
  unfold toUInt32
  rw [Int.emod_eq_of_lt (by positivity) (by exact_mod_cast h)]
  exact Int.toNat_natCast n

theorem toUInt32_get_distance {dist : Value → Value → Nat} {a b : Value}
    (h : dist a b < 2 ^ 31) : toUInt32 (get_distance dist a b) = dist a b := by
  rw [get_distance, toInt32_of_lt h]
  exact toUInt32_natCast (lt_trans h (by norm_num))

theorem insert_item_preserves (db : DB) (pid : Nat) (k : ItemKey) :
    (insert_item_ db pid k).points = db.points ∧
    (insert_item_ db pid k).vps = db.vps ∧
    (insert_item_ db pid k).vp_ids_cache = db.vp_ids_cache ∧
    (insert_item_ db pid k).ins_point_stmt = db.ins_point_stmt ∧
    (insert_item_ db pid k).part_stmt = db.part_stmt := by
  unfold insert_item_
  split
  · split <;> exact ⟨rfl, rfl, rfl, rfl, rfl⟩
  · exact ⟨rfl, rfl, rfl, rfl, rfl⟩

theorem update_vp_ids_preserves (db : DB) (L : List Nat) :
    (update_vp_ids db L).points = db.points ∧ (update_vp_ids db L).vps = db.vps ∧
    (update_vp_ids db L).items = db.items ∧ (update_vp_ids db L).counts = db.counts := by
  unfold update_vp_ids
  split <;> exact ⟨rfl, rfl, rfl, rfl⟩

theorem find?_append_none_singleton {α : Type} (l : List α) (p : α → Bool) (a : α)
    (hl : l.find? p = none) (ha : p a = true) : (l ++ [a]).find? p = some a := by
  rw [List.find?_append, hl, List.find?_cons_of_pos _ ha]
  rfl

theorem insert_item_found_same (db : DB) (pid : Nat) (k : ItemKey) (it : Item)
    (h : db.items.find? (fun j => j.key = k) = some it) (hp : it.point_id = pid) :
    insert_item_ db pid k = db := by
  unfold insert_item_
  rw [h]
  simp [hp]

theorem insert_item_idem (db : DB) (pid : Nat) (k : ItemKey) :
    insert_item_ (insert_item_ db pid k) pid k = insert_item_ db pid k := by
  cases h : db.items.find? (fun j => j.key = k) with
  | none =>
      have h1 : insert_item_ db pid k =
          { db with
            items := db.items ++ [{ id := db.items.length + 1, key := k, point_id := pid }],
            counts := { db.counts with items := db.counts.items + 1 } } := by
        unfold insert_item_
        rw [h]
      rw [h1]
      exact insert_item_found_same _ pid k
        { id := db.items.length + 1, key := k, point_id := pid }
        (find?_append_none_singleton _ _ _ h (by simp)) rfl
  | some it =>
      by_cases hp : it.point_id = pid
      · rw [insert_item_found_same db pid k it h hp, insert_item_found_same db pid k it h hp]
      · have h1 : insert_item_ db pid k =
            { db with items := db.items.map (fun j =>
                if j.key = k then { j with point_id := pid } else j) } := by
          unfold insert_item_
          rw [h]
          exact if_pos hp
        rw [h1]
        have hpred : ((fun j : Item => decide (j.key = k)) ∘ (fun j : Item =>
            if j.key = k then { j with point_id := pid } else j))
            = fun j : Item => decide (j.key = k) := by
          funext j
          by_cases hj : j.key = k <;> simp [hj]
        have hk : it.key = k := by simpa using List.find?_some h
        have h2 : (db.items.map (fun j =>
              if j.key = k then { j with point_id := pid } else j)).find?
              (fun j => j.key = k) = some { it with point_id := pid } := by
          rw [List.find?_map, hpred, h]
          simp [hk]
        exact insert_item_found_same _ pid k _ h2 rfl

theorem insert_point_of_found (dist : Value → Value → Nat) (db : DB) (v : Value) (p : Point)
    (h : db.points.find? (fun q => q.value = v) = some p) :
    insert_point_ dist db v = (p.id, none, db) := by
  unfold insert_point_
  rw [h]

theorem update_vp_ids_points (db : DB) (L : List Nat) :
    (update_vp_ids db L).points = db.points :=
  (update_vp_ids_preserves db L).1

theorem insert_point_not_found (dist : Value → Value → Nat) (db : DB) (v : Value)
    (h : db.points.find? (fun q => q.value = v) = none) :
    insert_point_ dist db v =
      ((update_vp_ids db (db.vps.map fun vp => vp.id)).points.length + 1,
       some ((update_vp_ids db (db.vps.map fun vp => vp.id)).ins_point_stmt.getD
         (update_vp_ids db (db.vps.map fun vp => vp.id)).vp_ids_cache),
       { update_vp_ids db (db.vps.map fun vp => vp.id) with
         ins_point_stmt := some ((update_vp_ids db (db.vps.map fun vp => vp.id)).ins_point_stmt.getD
           (update_vp_ids db (db.vps.map fun vp => vp.id)).vp_ids_cache),
         points := (update_vp_ids db (db.vps.map fun vp => vp.id)).points ++
           [{ id := (update_vp_ids db (db.vps.map fun vp => vp.id)).points.length + 1, value := v,
              embedding := ((update_vp_ids db (db.vps.map fun vp => vp.id)).ins_point_stmt.getD
                  (update_vp_ids db (db.vps.map fun vp => vp.id)).vp_ids_cache).zip
                (db.vps.map fun vp => get_distance dist vp.value v) }],
         counts := { (update_vp_ids db (db.vps.map fun vp => vp.id)).counts with
           points := (update_vp_ids db (db.vps.map fun vp => vp.id)).counts.points + 1 } }) := by
  unfold insert_point_ vp_dists_
  rw [h]

theorem insert_point_new_row (dist : Value → Value → Nat) (db : DB) (v : Value)
    (h : db.points.find? (fun q => q.value = v) = none) :
    (insert_point_ dist db v).2.2.points = db.points ++
      [{ id := (insert_point_ dist db v).1, value := v,
         embedding := ((update_vp_ids db (db.vps.map fun vp => vp.id)).ins_point_stmt.getD
             (update_vp_ids db (db.vps.map fun vp => vp.id)).vp_ids_cache).zip
           (db.vps.map fun vp => get_distance dist vp.value v) }] := by
  rw [insert_point_not_found dist db v h, update_vp_ids_points]

theorem insert_point_value_found_after (dist : Value → Value → Nat) (db : DB) (v : Value)
    (h : db.points.find? (fun q => q.value = v) = none) :
    (insert_point_ dist db v).2.2.points.find? (fun q => q.value = v)
      = some { id := (insert_point_ dist db v).1, value := v,
               embedding := ((update_vp_ids db (db.vps.map fun vp => vp.id)).ins_point_stmt.getD
                   (update_vp_ids db (db.vps.map fun vp => vp.id)).vp_ids_cache).zip
                 (db.vps.map fun vp => get_distance dist vp.value v) } := by
  rw [insert_point_new_row dist db v h]
  exact find?_append_none_singleton _ _ _ h (by simp)

theorem update_vp_ids_cache (db : DB) (L : List Nat) :
    (update_vp_ids db L).vp_ids_cache = L := by
  unfold update_vp_ids
  split
  · rename_i hc
    exact hc
  · rfl

theorem update_vp_ids_vps (db : DB) (L : List Nat) :
    (update_vp_ids db L).vps = db.vps :=
  (update_vp_ids_preserves db L).2.1

theorem update_vp_ids_items (db : DB) (L : List Nat) :
    (update_vp_ids db L).items = db.items :=
  (update_vp_ids_preserves db L).2.2.1

theorem update_vp_ids_stmt_inv (db : DB) (L : List Nat) (hs : stmt_inv db) :
    stmt_inv (update_vp_ids db L) := by
  unfold stmt_inv at hs ⊢
  unfold update_vp_ids
  split
  · exact hs
  · exact ⟨Or.inl rfl, Or.inl rfl⟩

theorem update_getD_ins (db : DB) (L : List Nat) (hs : stmt_inv db) :
    (update_vp_ids db L).ins_point_stmt.getD (update_vp_ids db L).vp_ids_cache = L := by
  have h1 := update_vp_ids_stmt_inv db L hs
  have h2 := update_vp_ids_cache db L
  rcases h1.1 with hh | hh <;> rw [hh] <;> simp [h2]

theorem update_getD_part (db : DB) (L : List Nat) (hs : stmt_inv db) :
    (update_vp_ids db L).part_stmt.getD (update_vp_ids db L).vp_ids_cache = L := by
  have h1 := update_vp_ids_stmt_inv db L hs
  have h2 := update_vp_ids_cache db L
  rcases h1.2 with hh | hh <;> rw [hh] <;> simp [h2]

theorem insert_eq (dist : Value → Value → Nat) (db : DB) (v : Value) (k : ItemKey) :
    insert dist db v k
      = insert_item_ (insert_point_ dist db v).2.2 (insert_point_ dist db v).1 k := rfl

theorem insert_found (dist : Value → Value → Nat) (db : DB) (v : Value) (k : ItemKey)
    (p : Point) (h : db.points.find? (fun q => q.value = v) = some p) :
    insert dist db v k = insert_item_ db p.id k := by
  have h0 := insert_point_of_found dist db v p h
  calc insert dist db v k
      = insert_item_ (insert_point_ dist db v).2.2 (insert_point_ dist db v).1 k := rfl
    _ = insert_item_ db p.id k := by rw [h0]

theorem insert_point_fields (dist : Value → Value → Nat) (db : DB) (v : Value)
    (h : db.points.find? (fun q => q.value = v) = none) (hs : stmt_inv db) :
    (insert_point_ dist db v).2.2.points = db.points ++
        [{ id := db.points.length + 1, value := v,
           embedding := (db.vps.map fun vp => vp.id).zip
             (db.vps.map fun vp => get_distance dist vp.value v) }] ∧
    (insert_point_ dist db v).2.2.vps = db.vps ∧
    (insert_point_ dist db v).2.2.items = db.items ∧
    (insert_point_ dist db v).2.2.vp_ids_cache = (db.vps.map fun vp => vp.id) ∧
    (insert_point_ dist db v).2.2.ins_point_stmt = some (db.vps.map fun vp => vp.id) ∧
    (insert_point_ dist db v).2.2.part_stmt
        = (update_vp_ids db (db.vps.map fun vp => vp.id)).part_stmt ∧
    (insert_point_ dist db v).1 = db.points.length + 1 := by
  have hkey := update_getD_ins db (db.vps.map fun vp => vp.id) hs
  rw [insert_point_not_found dist db v h]
  dsimp only
  refine ⟨?_, update_vp_ids_vps db _, update_vp_ids_items db _,
    update_vp_ids_cache db _, ?_, rfl, ?_⟩
  · rw [update_vp_ids_points, hkey]
  · rw [hkey]
  · rw [update_vp_ids_points]

theorem add_vantage_point_ok (dist : Value → Value → Nat) (db : DB) (v : Value)
    (h : db.vps.any (fun vp => vp.value = v) = false) :
    add_vantage_point dist db v = .ok (add_points_column_ dist
      { db with
        vps := db.vps ++ [{ id := db.vps.length + 1, value := v }],
        counts := { db.counts with vantage_points := db.counts.vantage_points + 1 } }
      (db.vps.length + 1) v) := by
  unfold add_vantage_point insert_vantage_point_
  rw [if_neg (by simp [h])]

theorem add_points_column_fields (dist : Value → Value → Nat) (db : DB)
    (vp_id : Nat) (vp_value : Value) :
    (add_points_column_ dist db vp_id vp_value).points = db.points.map (fun p =>
        { p with embedding := (p.embedding ++ [(vp_id, (0x7FFFFFFF : Int))]).map (fun e =>
            if e.1 = vp_id then (vp_id, (toUInt32 (get_distance dist vp_value p.value) : Int))
            else e) }) ∧
    (add_points_column_ dist db vp_id vp_value).vps = db.vps ∧
    (add_points_column_ dist db vp_id vp_value).items = db.items ∧
    (add_points_column_ dist db vp_id vp_value).counts = db.counts ∧
    (add_points_column_ dist db vp_id vp_value).vp_ids_cache = db.vp_ids_cache ∧
    (add_points_column_ dist db vp_id vp_value).ins_point_stmt = db.ins_point_stmt ∧
    (add_points_column_ dist db vp_id vp_value).part_stmt = db.part_stmt := by
  unfold add_points_column_ backfill_points add_column_default
  dsimp only
  refine ⟨?_, rfl, rfl, rfl, rfl, rfl, rfl⟩
  rw [List.map_map]
  apply List.map_congr_left
  intro p hp
  have hvis : p.id ∈ (db.points.map (fun q =>
      { q with embedding := q.embedding ++ [(vp_id, (0x7FFFFFFF : Int))] })).map
        (fun q => q.id) := by
    rw [List.map_map]
    exact List.mem_map.mpr ⟨p, hp, rfl⟩
  dsimp only [Function.comp]
  rw [if_pos hvis]

theorem query_state (dist : Value → Value → Nat) (db : DB) (pt : Value) (radius limit : Nat) :
    (query dist db pt radius limit).2
      = { update_vp_ids db (db.vps.map fun vp => vp.id) with
          part_stmt := some ((update_vp_ids db (db.vps.map fun vp => vp.id)).part_stmt.getD
            (update_vp_ids db (db.vps.map fun vp => vp.id)).vp_ids_cache) } := rfl

theorem query_key_rfl (dist : Value → Value → Nat) (db : DB) (pt : Value) (radius limit : Nat) :
    (query_ dist db pt radius limit).2.1
      = (update_vp_ids db (db.vps.map fun vp => vp.id)).part_stmt.getD
          (update_vp_ids db (db.vps.map fun vp => vp.id)).vp_ids_cache := rfl

/-- C5: inserting the same (point_value, item_key) pair twice yields
after the second call exactly the state the first call produced: the
point lookup hits the row the first call resolved or created, the item
lookup hits the item row already mapped to that point id, and neither
the points counter nor the items counter is incremented again. -/
theorem insert_idempotent (dist : Value → Value → Nat) (db : DB) (v : Value) (k : ItemKey) :
    insert dist (insert dist db v k) v k = insert dist db v k := by
  cases h : db.points.find? (fun q => q.value = v) with
  | some p =>
      have h1 : insert dist db v k = insert_item_ db p.id k := by
        have h0 := insert_point_of_found dist db v p h
        calc insert dist db v k
            = insert_item_ (insert_point_ dist db v).2.2 (insert_point_ dist db v).1 k := rfl
          _ = insert_item_ db p.id k := by rw [h0]
      have h2 : (insert_item_ db p.id k).points.find? (fun q => q.value = v) = some p := by
        rw [(insert_item_preserves db p.id k).1, h]
      rw [h1]
      have h3 : insert dist (insert_item_ db p.id k) v k
          = insert_item_ (insert_item_ db p.id k) p.id k := by
        have h0 := insert_point_of_found dist (insert_item_ db p.id k) v p h2
        calc insert dist (insert_item_ db p.id k) v k
            = insert_item_ (insert_point_ dist (insert_item_ db p.id k) v).2.2
                (insert_point_ dist (insert_item_ db p.id k) v).1 k := rfl
          _ = insert_item_ (insert_item_ db p.id k) p.id k := by rw [h0]
      rw [h3, insert_item_idem]
  | none =>
      have hfound := insert_point_value_found_after dist db v h
      obtain ⟨emb, hemb⟩ : ∃ e : List (Nat × Int), e =
          ((update_vp_ids db (db.vps.map fun vp => vp.id)).ins_point_stmt.getD
              (update_vp_ids db (db.vps.map fun vp => vp.id)).vp_ids_cache).zip
            (db.vps.map fun vp => get_distance dist vp.value v) := ⟨_, rfl⟩
      obtain ⟨pt, hpt⟩ : ∃ pt : Point,
          pt = { id := (insert_point_ dist db v).1, value := v, embedding := emb } := ⟨_, rfl⟩
      rw [hemb] at hpt
      rw [← hpt] at hfound
      have hid : pt.id = (insert_point_ dist db v).1 := by rw [hpt]
      have h1 : insert dist db v k = insert_item_ (insert_point_ dist db v).2.2 pt.id k := by
        rw [hid]
        rfl
      have h3 : (insert dist db v k).points.find? (fun q => q.value = v) = some pt := by
        rw [h1, (insert_item_preserves _ _ _).1]
        exact hfound
      have h4 : insert dist (insert dist db v k) v k
          = insert_item_ (insert dist db v k) pt.id k := by
        have h0 := insert_point_of_found dist (insert dist db v k) v pt h3
        calc insert dist (insert dist db v k) v k
            = insert_item_ (insert_point_ dist (insert dist db v k) v).2.2
                (insert_point_ dist (insert dist db v k) v).1 k := rfl
          _ = insert_item_ (insert dist db v k) pt.id k := by rw [h0]
      rw [h4, h1, insert_item_idem]

theorem vp_id_ne_next {db : DB} (hids : vps_ids_ok db) {vp : VantagePoint}
    (hvp : vp ∈ db.vps) : vp.id ≠ db.vps.length + 1 := by
  unfold vps_ids_ok at hids
  have hmem : vp.id ∈ db.vps.map (fun w => w.id) := List.mem_map.mpr ⟨vp, hvp, rfl⟩
  rw [hids] at hmem
  have := List.mem_range'_1.mp hmem
  omega

theorem Inv_step (dist : Value → Value → Nat) (hfit : ∀ a b, dist a b < 2 ^ 31)
    (db : DB) (op : Op) (h : Inv dist db) : Inv dist (step dist db op) := by
  obtain ⟨hids, hs, hemb⟩ := h
  cases op with
  | ins v k =>
      show Inv dist (insert dist db v k)
      cases hf : db.points.find? (fun q => q.value = v) with
      | some p =>
          rw [insert_found dist db v k p hf]
          obtain ⟨hp1, hp2, hp3, hp4, hp5⟩ := insert_item_preserves db p.id k
          refine ⟨?_, ?_, ?_⟩
          · unfold vps_ids_ok at hids ⊢
            rw [hp2]
            exact hids
          · unfold stmt_inv at hs ⊢
            rw [hp3, hp4, hp5]
            exact hs
          · unfold emb_exact at hemb ⊢
            rw [hp1, hp2]
            exact hemb
      | none =>
          rw [insert_eq dist db v k]
          obtain ⟨hq1, hq2, hq3, hq4, hq5, hq6, hq7⟩ := insert_point_fields dist db v hf hs
          obtain ⟨hp1, hp2, hp3, hp4, hp5⟩ :=
            insert_item_preserves (insert_point_ dist db v).2.2 (insert_point_ dist db v).1 k
          refine ⟨?_, ?_, ?_⟩
          · unfold vps_ids_ok at hids ⊢
            rw [hp2, hq2]
            exact hids
          · unfold stmt_inv at hs ⊢
            rw [hp3, hp4, hp5, hq4, hq5, hq6]
            refine ⟨Or.inr rfl, ?_⟩
            have h1 := update_vp_ids_stmt_inv db (db.vps.map fun vp => vp.id) hs
            have h2 := update_vp_ids_cache db (db.vps.map fun vp => vp.id)
            rcases h1.2 with hh | hh
            · exact Or.inl hh
            · rw [hh, h2]
              exact Or.inr rfl
          · unfold emb_exact at hemb ⊢
            rw [hp1, hq1, hp2, hq2]
            intro p hp
            rcases List.mem_append.mp hp with hmem | hmem
            · exact hemb p hmem
            · rw [List.mem_singleton] at hmem
              subst hmem
              dsimp only
              rw [List.zip_map' (fun vp : VantagePoint => vp.id)
                (fun vp => get_distance dist vp.value v) db.vps]
              apply List.map_congr_left
              intro vp hvp
              dsimp only
              rw [get_distance, toInt32_of_lt (hfit _ _)]
  | reg v =>
      cases hdup : db.vps.any (fun vp => vp.value = v) with
      | true =>
          have he : add_vantage_point dist db v = .error .DuplicateVantagePoint := by
            unfold add_vantage_point insert_vantage_point_
            rw [if_pos hdup]
          simp only [step, he]
          exact ⟨hids, hs, hemb⟩
      | false =>
          have hok := add_vantage_point_ok dist db v hdup
          simp only [step, hok]
          obtain ⟨hc1, hc2, hc3, hc4, hc5, hc6, hc7⟩ := add_points_column_fields dist
            { db with
              vps := db.vps ++ [{ id := db.vps.length + 1, value := v }],
              counts := { db.counts with vantage_points := db.counts.vantage_points + 1 } }
            (db.vps.length + 1) v
          refine ⟨?_, ?_, ?_⟩
          · unfold vps_ids_ok at hids ⊢
            rw [hc2]
            show (db.vps ++ [({ id := db.vps.length + 1, value := v } : VantagePoint)]).map
                (fun vp => vp.id)
              = List.range' 1
                  (db.vps ++ [({ id := db.vps.length + 1, value := v } : VantagePoint)]).length
            rw [List.map_append, hids, List.length_append, List.length_singleton,
              List.range'_1_concat]
            simp [Nat.add_comm]
          · unfold stmt_inv at hs ⊢
            rw [hc5, hc6, hc7]
            exact hs
          · unfold emb_exact at hemb ⊢
            rw [hc1, hc2]
            intro p hp
            obtain ⟨q, hq, rfl⟩ := List.mem_map.mp hp
            dsimp only
            rw [hemb q hq, List.map_append, List.map_map, List.map_append]
            congr 1
            · apply List.map_congr_left
              intro vp hvp
              dsimp only [Function.comp]
              rw [if_neg (by simp [vp_id_ne_next hids hvp])]
            · dsimp only [List.map_singleton]
              rw [if_pos rfl, toUInt32_get_distance (hfit _ _)]
  | qry pt radius limit =>
      show Inv dist (query dist db pt radius limit).2
      rw [query_state dist db pt radius limit]
      have h1 := update_vp_ids_stmt_inv db (db.vps.map fun vp => vp.id) hs
      have h2 := update_vp_ids_cache db (db.vps.map fun vp => vp.id)
      have hkey := update_getD_part db (db.vps.map fun vp => vp.id) hs
      refine ⟨?_, ?_, ?_⟩
      · unfold vps_ids_ok at hids ⊢
        show (update_vp_ids db (db.vps.map fun vp => vp.id)).vps.map (fun vp => vp.id)
          = List.range' 1 (update_vp_ids db (db.vps.map fun vp => vp.id)).vps.length
        rw [update_vp_ids_vps]
        exact hids
      · unfold stmt_inv
        show ((update_vp_ids db (db.vps.map fun vp => vp.id)).ins_point_stmt = none ∨ _) ∧
          (some ((update_vp_ids db (db.vps.map fun vp => vp.id)).part_stmt.getD
            (update_vp_ids db (db.vps.map fun vp => vp.id)).vp_ids_cache) = none ∨ _)
        constructor
        · exact h1.1
        · right
          rw [hkey, h2]
      · unfold emb_exact at hemb ⊢
        show ∀ p ∈ (update_vp_ids db (db.vps.map fun vp => vp.id)).points, _
        rw [update_vp_ids_points, update_vp_ids_vps]
        exact hemb

theorem Inv_empty (dist : Value → Value → Nat) : Inv dist emptyDB := by
  refine ⟨rfl, ⟨Or.inl rfl, Or.inl rfl⟩, ?_⟩
  intro p hp
  simp [emptyDB] at hp

theorem Inv_run (dist : Value → Value → Nat) (hfit : ∀ a b, dist a b < 2 ^ 31)
    (db : DB) (h : Inv dist db) (ops : List Op) : Inv dist (run dist db ops) := by
  induction ops generalizing db with
  | nil => exact h
  | cons op ops ih => exact ih (step dist db op) (Inv_step dist hfit db op h)

theorem insert_point_key (dist : Value → Value → Nat) (db : DB) (v : Value)
    (h : db.points.find? (fun q => q.value = v) = none) (hs : stmt_inv db) :
    (insert_point_ dist db v).2.1 = some (db.vps.map fun vp => vp.id) := by
  have hkey := update_getD_ins db (db.vps.map fun vp => vp.id) hs
  rw [insert_point_not_found dist db v h]
  dsimp only
  rw [hkey]

theorem stmt_inv_step (dist : Value → Value → Nat) (db : DB) (op : Op)
    (hs : stmt_inv db) : stmt_inv (step dist db op) := by
  cases op with
  | ins v k =>
      show stmt_inv (insert dist db v k)
      cases hf : db.points.find? (fun q => q.value = v) with
      | some p =>
          rw [insert_found dist db v k p hf]
          obtain ⟨hp1, hp2, hp3, hp4, hp5⟩ := insert_item_preserves db p.id k
          unfold stmt_inv at hs ⊢
          rw [hp3, hp4, hp5]
          exact hs
      | none =>
          rw [insert_eq dist db v k]
          obtain ⟨hq1, hq2, hq3, hq4, hq5, hq6, hq7⟩ := insert_point_fields dist db v hf hs
          obtain ⟨hp1, hp2, hp3, hp4, hp5⟩ :=
            insert_item_preserves (insert_point_ dist db v).2.2 (insert_point_ dist db v).1 k
          have h1 := update_vp_ids_stmt_inv db (db.vps.map fun vp => vp.id) hs
          have h2 := update_vp_ids_cache db (db.vps.map fun vp => vp.id)
          unfold stmt_inv
          rw [hp3, hp4, hp5, hq4, hq5, hq6]
          refine ⟨Or.inr rfl, ?_⟩
          rcases h1.2 with hh | hh
          · exact Or.inl hh
          · rw [hh, h2]
            exact Or.inr rfl
  | reg v =>
      cases hdup : db.vps.any (fun vp => vp.value = v) with
      | true =>
          have he : add_vantage_point dist db v = .error .DuplicateVantagePoint := by
            unfold add_vantage_point insert_vantage_point_
            rw [if_pos hdup]
          simp only [step, he]
          exact hs
      | false =>
          have hok := add_vantage_point_ok dist db v hdup
          simp only [step, hok]
          obtain ⟨hc1, hc2, hc3, hc4, hc5, hc6, hc7⟩ := add_points_column_fields dist
            { db with
              vps := db.vps ++ [{ id := db.vps.length + 1, value := v }],
              counts := { db.counts with vantage_points := db.counts.vantage_points + 1 } }
            (db.vps.length + 1) v
          unfold stmt_inv at hs ⊢
          rw [hc5, hc6, hc7]
          exact hs
  | qry pt radius limit =>
      show stmt_inv (query dist db pt radius limit).2
      rw [query_state dist db pt radius limit]
      have h1 := update_vp_ids_stmt_inv db (db.vps.map fun vp => vp.id) hs
      have h2 := update_vp_ids_cache db (db.vps.map fun vp => vp.id)
      have hkey := update_getD_part db (db.vps.map fun vp => vp.id) hs
      unfold stmt_inv
      show ((update_vp_ids db (db.vps.map fun vp => vp.id)).ins_point_stmt = none ∨ _) ∧
        (some ((update_vp_ids db (db.vps.map fun vp => vp.id)).part_stmt.getD
          (update_vp_ids db (db.vps.map fun vp => vp.id)).vp_ids_cache) = none ∨ _)
      constructor
      · exact h1.1
      · right
        rw [hkey, h2]

theorem lower_bound_eq_max (d radius : Nat) :
    (lower_bound d radius : Int) = max 0 ((d : Int) - (radius : Int)) := by
  unfold lower_bound
  split <;> omega

theorem upper_bound_eq_min (d radius : Nat) :
    (upper_bound d radius : Int)
      = min ((0xFFFFFFFF : Nat) : Int) ((d : Int) + (radius : Int)) := by
  unfold upper_bound
  split <;> omega

theorem query_conds_eq (dist : Value → Value → Nat) (db : DB) (pt : Value) (radius : Nat)
    (hs : stmt_inv db) :
    query_conds dist db pt radius = db.vps.map (fun vp =>
      (vp.id, lower_bound (toUInt32 (get_distance dist vp.value pt)) radius,
        upper_bound (toUInt32 (get_distance dist vp.value pt)) radius)) := by
  unfold query_conds
  dsimp only
  rw [update_getD_part db _ hs]
  unfold lower_bounds upper_bounds
  rw [List.zip_map' (fun vp : VantagePoint =>
        lower_bound (toUInt32 (get_distance dist vp.value pt)) radius)
      (fun vp : VantagePoint =>
        upper_bound (toUInt32 (get_distance dist vp.value pt)) radius) db.vps,
    List.zip_map' (fun vp : VantagePoint => vp.id)
      (fun vp : VantagePoint =>
        (lower_bound (toUInt32 (get_distance dist vp.value pt)) radius,
         upper_bound (toUInt32 (get_distance dist vp.value pt)) radius)) db.vps]

theorem query_candidates_iff (dist : Value → Value → Nat) (db : DB) (pt : Value)
    (radius : Nat) (hs : stmt_inv db) (p : Point) (hp : p ∈ db.points) :
    p ∈ query_candidates dist db pt radius ↔
      ∀ vp ∈ db.vps,
        (lower_bound (toUInt32 (get_distance dist vp.value pt)) radius : Int)
            ≤ lookup_col p.embedding vp.id ∧
        lookup_col p.embedding vp.id
            ≤ (upper_bound (toUInt32 (get_distance dist vp.value pt)) radius : Int) := by
  unfold query_candidates
  rw [List.mem_filter, query_conds_eq dist db pt radius hs]
  simp only [hp, true_and, List.all_eq_true, List.forall_mem_map, in_interval,
    Bool.and_eq_true, decide_eq_true_eq]

/-- C1: the claim states that a stored item key appears in
query(query_value, radius, unbounded) iff the true distance of its
point is at most the radius, the exact re-verification step removing
every candidate beyond the radius. The source has no such step: the
candidate loop of Database::Impl::query records every candidate with
its true distance and never compares that distance to the radius, so
with one stored point at distance 5 from the query and no vantage
points (every point a candidate), a radius-3 query returns the key of
the out-of-radius point. -/
theorem query_returns_item_beyond_radius :
    cdist [0] [5] = 5 ∧
    (query cdist (run cdist emptyDB [Op.ins [5] 70]) [0] 3 0).1 = [70] := by
  decide

/-- C4: the claim states that registering one more vantage point never
changes the result set of a fixed query. Because the source never
re-verifies candidate distances against the radius, pruning does
change results: with one point at distance 5, a radius-3 query with no
vantage points returns its key, and the same query after registering
the query point as a vantage point returns nothing. -/
theorem query_result_changes_after_vantage_point :
    (query cdist (run cdist emptyDB [Op.ins [5] 70]) [0] 3 0).1 = [70] ∧
    (query cdist (run cdist emptyDB [Op.ins [5] 70, Op.reg [0]]) [0] 3 0).1 = [] := by
  decide

/-- C7: the claim states that a distance outside the 32-bit signed
range makes the insertion fail with DistanceOverflow and that no
truncated value is stored. The source casts the distance to int with
no check (the TODO at db.cpp:144): with an external distance of 2^31,
the insertion completes, the points counter is incremented, and the
stored embedding entry is the wrapped value -(2^31). -/
theorem distance_overflow_truncated_stored :
    bigDist [0] [1] = 2 ^ 31 ∧
    ((run bigDist emptyDB [Op.reg [0], Op.ins [1] 9]).points.map Point.embedding)
      = [[(1, -(2 ^ 31 : Int))]] ∧
    (run bigDist emptyDB [Op.reg [0], Op.ins [1] 9]).counts.points = 1 := by
  decide

/-- C8: the claim states that find_vantage_point fails with
InsufficientData on an empty Point store and otherwise returns the
value of some stored point. The source reads the vantage-point count,
leaves both branches of its conditional empty, never consults the
Point store, and returns without a value, for every state and sample
size. -/
theorem find_vantage_point_returns_no_value :
    ∀ (db : DB) (sample_size : Nat), find_vantage_point db sample_size = .ok none := by
  intro db n
  unfold find_vantage_point
  by_cases h : db.counts.vantage_points > 0 <;> simp [h]

/-- C2: after any sequence of operations from a fresh store, every
stored point's embedding holds exactly one entry per currently
registered vantage point, in registration order, and every entry
equals the external distance between the vantage-point value and the
point value: insertion computes one distance per registered vantage
point and registration backfills the new slot for every existing point
in the same transaction. Stated under the documented domain assumption
that distances fit the 32-bit signed range. -/
theorem run_embedding_complete (dist : Value → Value → Nat)
    (hfit : ∀ a b, dist a b < 2 ^ 31) (ops : List Op) :
    ∀ p ∈ (run dist emptyDB ops).points,
      p.embedding = (run dist emptyDB ops).vps.map
        (fun vp => (vp.id, (dist vp.value p.value : Int))) :=
  (Inv_run dist hfit emptyDB (Inv_empty dist) ops).2.2

/-- Witness for C2 on a concrete run with one vantage point and one
point. -/
theorem run_embedding_complete_witness :
    ({ id := 1, value := [5], embedding := [(1, 1)] } : Point).embedding
      = (run distOne emptyDB [Op.reg [0], Op.ins [5] 70]).vps.map
          (fun vp => (vp.id, (distOne vp.value [5] : Int))) :=
  run_embedding_complete distOne (fun a b => by norm_num [distOne])
    [Op.reg [0], Op.ins [5] 70]
    { id := 1, value := [5], embedding := [(1, 1)] } (by decide)

/-- C9: update_vp_ids discards both compiled statements whenever the
observed vantage-point id list differs from the cached one, and
insert_point_ and query rebuild them lazily against the refreshed
cache, so in a coherent state the statement either one executes is
keyed to exactly the id list read from the store during that
operation, and coherence is preserved by every operation (in
particular by add_vantage_point, which changes the stored list and
leaves the stale statements to be discarded at their next use). -/
theorem cached_statements_match_vp_ids (dist : Value → Value → Nat) (db : DB)
    (v : Value) (pt : Value) (radius limit : Nat) (op : Op)
    (hs : stmt_inv db) :
    (db.vp_ids_cache ≠ (db.vps.map fun vp => vp.id) →
      (update_vp_ids db (db.vps.map fun vp => vp.id)).ins_point_stmt = none ∧
      (update_vp_ids db (db.vps.map fun vp => vp.id)).part_stmt = none) ∧
    (∀ key, (insert_point_ dist db v).2.1 = some key → key = db.vps.map fun vp => vp.id) ∧
    (query_ dist db pt radius limit).2.1 = (db.vps.map fun vp => vp.id) ∧
    stmt_inv (step dist db op) := by
  refine ⟨?_, ?_, ?_, stmt_inv_step dist db op hs⟩
  · intro hne
    unfold update_vp_ids
    rw [if_neg hne]
    exact ⟨rfl, rfl⟩
  · intro key hkey
    cases hf : db.points.find? (fun q => q.value = v) with
    | some p =>
        rw [insert_point_of_found dist db v p hf] at hkey
        simp at hkey
    | none =>
        rw [insert_point_key dist db v hf hs] at hkey
        exact (Option.some.inj hkey).symm
  · rw [query_key_rfl]
    exact update_getD_part db _ hs

/-- Witness for C9 at a concrete coherent state. -/
theorem cached_statements_match_vp_ids_witness :
    (query_ cdist (run cdist emptyDB [Op.ins [2] 4]) [0] 1 0).2.1
        = ((run cdist emptyDB [Op.ins [2] 4]).vps.map fun vp => vp.id) ∧
    stmt_inv (step cdist (run cdist emptyDB [Op.ins [2] 4]) (Op.reg [3])) :=
  ⟨(cached_statements_match_vp_ids cdist (run cdist emptyDB [Op.ins [2] 4]) [7] [0] 1 0
      (Op.reg [3]) (by unfold stmt_inv; decide)).2.2.1,
   (cached_statements_match_vp_ids cdist (run cdist emptyDB [Op.ins [2] 4]) [7] [0] 1 0
      (Op.reg [3]) (by unfold stmt_inv; decide)).2.2.2⟩

/-- C3: for every registered vantage point with d the distance from
its value to the query value, the filtering interval of query is
exactly [max(0, d - radius), min(0xFFFFFFFF, d + radius)], clamped at
both ends of the 32-bit unsigned distance domain, and a stored point
is selected by the partition statement iff its stored embedding entry
lies inside the interval of every registered vantage point
simultaneously (a conjunction over all vantage points). -/
theorem query_admissible_interval (dist : Value → Value → Nat) (db : DB) (pt : Value)
    (radius : Nat) (hfit : ∀ a b, dist a b < 2 ^ 31) (hs : stmt_inv db) :
    (∀ vp ∈ db.vps,
        ((lower_bound (dist vp.value pt) radius : Int)
            = max 0 ((dist vp.value pt : Int) - (radius : Int))) ∧
        ((upper_bound (dist vp.value pt) radius : Int)
            = min ((0xFFFFFFFF : Nat) : Int) ((dist vp.value pt : Int) + (radius : Int)))) ∧
    (∀ p ∈ db.points, (p ∈ query_candidates dist db pt radius ↔
        ∀ vp ∈ db.vps,
          (lower_bound (dist vp.value pt) radius : Int) ≤ lookup_col p.embedding vp.id ∧
          lookup_col p.embedding vp.id ≤ (upper_bound (dist vp.value pt) radius : Int))) := by
  have heq : ∀ vp : VantagePoint, toUInt32 (get_distance dist vp.value pt) = dist vp.value pt :=
    fun vp => toUInt32_get_distance (hfit _ _)
  constructor
  · intro vp hvp
    exact ⟨lower_bound_eq_max _ _, upper_bound_eq_min _ _⟩
  · intro p hp
    have base := query_candidates_iff dist db pt radius hs p hp
    simp only [heq] at base
    exact base

/-- Witness for C3 at a concrete state with one vantage point. -/
theorem query_admissible_interval_witness :
    ((lower_bound (distOne [0] [0]) 3 : Int)
        = max 0 ((distOne [0] [0] : Int) - (3 : Int))) ∧
    ((upper_bound (distOne [0] [0]) 3 : Int)
        = min ((0xFFFFFFFF : Nat) : Int) ((distOne [0] [0] : Int) + (3 : Int))) :=
  (query_admissible_interval distOne (run distOne emptyDB [Op.reg [0], Op.ins [5] 70])
      [0] 3 (fun a b => by norm_num [distOne]) (by unfold stmt_inv; decide)).1
    { id := 1, value := [0] } (by decide)

/-- C10: the ALTER TABLE of registration creates the new embedding
column with default 0x7FFFFFFF (the maximum 32-bit signed integer), so
after the column is added every existing point reads the new slot as
maximally distant; the backfill scan overwrites the slot of every row
it visits with the computed distance, and any row it does not visit
retains 0x7FFFFFFF. -/
theorem new_column_default_max_int32 (dist : Value → Value → Nat) (db : DB)
    (vp_id : Nat) (vp_value : Value) (visited : List Nat)
    (hfresh : ∀ p ∈ db.points, ∀ e ∈ p.embedding, e.1 ≠ vp_id) :
    (∀ p ∈ (add_column_default db vp_id).points,
        lookup_col p.embedding vp_id = 0x7FFFFFFF) ∧
    (∀ p ∈ (backfill_points dist (add_column_default db vp_id) vp_id vp_value visited).points,
        (p.id ∉ visited → lookup_col p.embedding vp_id = 0x7FFFFFFF) ∧
        (p.id ∈ visited → lookup_col p.embedding vp_id
            = (toUInt32 (get_distance dist vp_value p.value) : Int))) := by
  have hnone : ∀ q ∈ db.points, q.embedding.find? (fun e => e.1 = vp_id) = none := by
    intro q hq
    rw [List.find?_eq_none]
    intro e he
    simpa using hfresh q hq e he
  have hdef : ∀ q ∈ db.points,
      lookup_col (q.embedding ++ [(vp_id, (0x7FFFFFFF : Int))]) vp_id = 0x7FFFFFFF := by
    intro q hq
    unfold lookup_col
    rw [find?_append_none_singleton _ _ _ (hnone q hq) (by simp)]
    rfl
  constructor
  · intro p hp
    obtain ⟨q, hq, rfl⟩ := List.mem_map.mp hp
    exact hdef q hq
  · intro p hp
    obtain ⟨q1, hq1, rfl⟩ := List.mem_map.mp hp
    obtain ⟨q, hq, rfl⟩ := List.mem_map.mp hq1
    by_cases hv : (({ q with embedding := q.embedding ++ [(vp_id, (0x7FFFFFFF : Int))] } :
        Point)).id ∈ visited
    · rw [if_pos hv]
      constructor
      · intro hnv
        exact absurd hv hnv
      · intro hvv
        unfold lookup_col
        rw [List.find?_map]
        have hcomp : ((fun e : Nat × Int => decide (e.1 = vp_id)) ∘ (fun e : Nat × Int =>
            if e.1 = vp_id
            then (vp_id, (toUInt32 (get_distance dist vp_value q.value) : Int))
            else e)) = fun e : Nat × Int => decide (e.1 = vp_id) := by
          funext e
          by_cases he : e.1 = vp_id <;> simp [he]
        rw [hcomp, List.find?_append, hnone q hq]
        simp
    · rw [if_neg hv]
      constructor
      · intro hnv
        exact hdef q hq
      · intro hvv
        exact absurd hvv hv

/-- Witness for C10 at a concrete state with a single point and a
backfill scan that visits nothing. -/
theorem new_column_default_max_int32_witness :
    lookup_col (({ id := 1, value := [5],
                   embedding := [(1, (0x7FFFFFFF : Int))] } : Point)).embedding 1
      = 0x7FFFFFFF :=
  (new_column_default_max_int32 cdist (run cdist emptyDB [Op.ins [5] 70]) 1 [0] []
      (by decide)).1
    { id := 1, value := [5], embedding := [(1, (0x7FFFFFFF : Int))] } (by decide)

/-- C6: registering a vantage-point value already present in the
VantagePoint store fails with DuplicateVantagePoint (the UNIQUE
constraint of mvp_vantage_points), and the aborted transaction leaves
the whole state, stores and counters included, exactly as before the
call. -/
theorem duplicate_vantage_point_rejected (dist : Value → Value → Nat) (db : DB)
    (v : Value) (hdup : v ∈ db.vps.map (fun vp => vp.value)) :
    add_vantage_point dist db v = .error .DuplicateVantagePoint ∧
    step dist db (.reg v) = db := by
  have hany : db.vps.any (fun vp => vp.value = v) = true := by
    simp only [List.any_eq_true]
    obtain ⟨vp, hvp, he⟩ := List.mem_map.mp hdup
    exact ⟨vp, hvp, by simp [he]⟩
  have h1 : add_vantage_point dist db v = .error .DuplicateVantagePoint := by
    unfold add_vantage_point insert_vantage_point_
    rw [if_pos hany]
  refine ⟨h1, ?_⟩
  simp only [step]
  rw [h1]

/-- Witness for C6 at a concrete state holding vantage point [0]. -/
theorem duplicate_vantage_point_rejected_witness :
    add_vantage_point cdist (run cdist emptyDB [Op.reg [0]]) [0]
        = .error .DuplicateVantagePoint ∧
    step cdist (run cdist emptyDB [Op.reg [0]]) (.reg [0]) = run cdist emptyDB [Op.reg [0]] :=
  duplicate_vantage_point_rejected cdist (run cdist emptyDB [Op.reg [0]]) [0] (by decide)

end ImgHash
